import Mathlib

/-!
Verification development for the File Eraser tool (`src/main.py`).

The development shallowly embeds the three core components of the program:

* the erase engine `erase_file` (src/main.py lines 77-140),
* the batch coordinator `EraseWorker.run` (src/main.py lines 154-175),
* the target resolver `get_all_files` (src/main.py lines 63-74).

A file's on-disk state is `Option (List Nat)` (`none` = the path does not
exist, `some bytes` = the file's content).  Progress-callback messages are
modelled by the inductive `Msg`, one constructor per f-string emitted by
the source.  Fallible I/O operations (open/read/write/flush/fsync) are
given a fault oracle `opOk : Nat → Bool` indexed by the static position of
the operation in the (linear) control flow of `erase_file`; `opOk k = true`
means the k-th operation succeeds, `opOk k = false` means it raises an
OS-level I/O error.  A Python exception escaping a region of code is an
`Except.error` carrying the file state and the events emitted so far.
-/

/-! ### Exact model of the Python expression `int(original_size * 0.9)`

`0.9` as an IEEE-754 double is exactly `8106479329266893 / 2 ^ 53`.
Multiplying the Python int `n` by it first converts `n` to a double
(round to nearest, ties to even, 53 significant bits), then multiplies,
rounding the exact product to the nearest double (ties to even); `int`
then truncates the (positive) result toward zero.  All rounding is done
below with exact natural-number arithmetic. -/

/-- Fuel-driven floor of the binary logarithm (`log2f n n` is `⌊log₂ n⌋`
for `n ≥ 1`; the fuel `n` is always sufficient since `n ≥ ⌊log₂ n⌋ + 1`).
The fuel makes the definition structurally recursive, hence kernel-reducible. -/
def log2f : Nat → Nat → Nat
  | 0, _ => 0
  | fuel + 1, n => if 2 ≤ n then log2f fuel (n / 2) + 1 else 0

/-- Floor of the binary logarithm, kernel-reducible version. -/
def nlog2 (n : Nat) : Nat := log2f n n

/-- Round `m / 2 ^ k` to the nearest integer, ties to even. -/
def rndHE (m k : Nat) : Nat :=
  let q := m / 2 ^ k
  let r := m % 2 ^ k
  if 2 * r < 2 ^ k then q
  else if 2 ^ k < 2 * r then q + 1
  else if q % 2 = 0 then q else q + 1

/-- Round a natural number to the nearest IEEE-754 double
(53 significant bits, ties to even), returned as a natural number
(the result of the conversion is always a nonnegative integer value). -/
def roundSig53 (n : Nat) : Nat :=
  if n ≤ 2 ^ 53 then n
  else
    let k := nlog2 n - 52
    rndHE n k * 2 ^ k

/-- The significand of the double literal `0.9`:
`0.9` is exactly `8106479329266893 / 2 ^ 53`. -/
def double09num : Nat := 8106479329266893

/-- Exact model of the Python expression `int(n * 0.9)` (src/main.py line 99):
convert `n` to a double, multiply by the double `0.9` (rounding the exact
product to the nearest double, ties to even), truncate toward zero. -/
def pyInt09 (n : Nat) : Nat :=
  let a := roundSig53 n
  let m := a * double09num
  let k := nlog2 m - 52
  rndHE m k * 2 ^ k / 2 ^ 53

/-! ### The erase engine (src/main.py lines 77-140) -/

/-- ASCII bytes of the Python literal `b"hello world "` (12 bytes,
trailing space included). -/
def helloWorldBytes : List Nat :=
  [104, 101, 108, 108, 111, 32, 119, 111, 114, 108, 100, 32]

/-- The pass-3 buffer `(b"hello world " * (new_size // 12 + 1))[:new_size]`
(src/main.py line 119). -/
def hello_data (new_size : Nat) : List Nat :=
  ((List.replicate (new_size / 12 + 1) helloWorldBytes).flatten).take new_size

/-- Progress-callback messages of `erase_file` and progress messages of
`EraseWorker.run`, one constructor per f-string of the source:
`step1 name` is "Step 1/4: Removing 10% of content from {name}",
`step2 name` is "Step 2/4: Replacing with random letters in {name}",
`step3 name` is "Step 3/4: Overwriting with 'hello world' in {name}",
`step4 name` is "Step 4/4: Clearing content of {name}",
`processing cur tot name` is "Processing file {cur}/{tot}: {name}",
`stopped` is "Erasing stopped by user". -/
inductive Msg where
  | step1 (name : String)
  | step2 (name : String)
  | step3 (name : String)
  | step4 (name : String)
  | processing (current total : Nat) (name : String)
  | stopped
deriving DecidableEq

/-- Observable state surrounding one `erase_file` call: the on-disk file
(`none` = path does not exist) and the progress-callback messages emitted
so far, in order. -/
structure EState where
  fs : Option (List Nat)
  events : List Msg
deriving DecidableEq

/-- The dedented `f.flush()` at src/main.py line 102: the `with` block of
lines 100-101 has already closed the handle `f`, and CPython's
`BufferedWriter.flush` on a closed file unconditionally raises
`ValueError: flush of closed file`. -/
def flushClosed : Except Unit Unit := .error ()

/-- Body of the `try:` block of `erase_file` (src/main.py lines 82-136),
i.e. everything the `except Exception` handler protects.  `.ok (b, st)` is
a normal `return b` with observable state `st`; `.error st` is an exception
escaping the body with observable state `st`.  Fault-oracle indices of the
I/O operations, in control-flow order:
0 = open-for-read + read (lines 88-89);
1 = `open(file_path, 'wb')` of pass 1 (truncates the file), 2 = its write;
the flush/fsync of pass 1 (lines 102-103) act on the closed handle, see
`flushClosed`;
3 = open of pass 2 (truncates), 4 = write, 5 = flush, 6 = fsync;
7 = open of pass 3 (truncates), 8 = write, 9 = flush, 10 = fsync;
11 = open of pass 4 (truncates), 12 = write of `b''`, 13 = flush, 14 = fsync. -/
def eraseBody (file : Option (List Nat)) (name : String)
    (rand : Nat → Nat) (opOk : Nat → Bool) : Except EState (Bool × EState) :=
  match file with
  | none => .ok (false, ⟨none, []⟩)
  | some original_content =>
    if opOk 0 then
      let original_size := original_content.length
      if original_size = 0 then
        .ok (true, ⟨some original_content, []⟩)
      else
        let ev1 := [Msg.step1 name]
        let new_size := pyInt09 original_size
        if opOk 1 then
          if opOk 2 then
            let c1 := original_content.take new_size
            match flushClosed with
            | .error _ => .error ⟨some c1, ev1⟩
            | .ok _ =>
              let ev2 := ev1 ++ [Msg.step2 name]
              let random_letters := (List.range new_size).map rand
              if opOk 3 then
                if opOk 4 then
                  if opOk 5 then
                    if opOk 6 then
                      let ev3 := ev2 ++ [Msg.step3 name]
                      let hd := hello_data new_size
                      if opOk 7 then
                        if opOk 8 then
                          if opOk 9 then
                            if opOk 10 then
                              let ev4 := ev3 ++ [Msg.step4 name]
                              if opOk 11 then
                                if opOk 12 then
                                  if opOk 13 then
                                    if opOk 14 then
                                      .ok (true, ⟨some [], ev4⟩)
                                    else .error ⟨some [], ev4⟩
                                  else .error ⟨some [], ev4⟩
                                else .error ⟨some [], ev4⟩
                              else .error ⟨some hd, ev4⟩
                            else .error ⟨some hd, ev3⟩
                          else .error ⟨some hd, ev3⟩
                        else .error ⟨some [], ev3⟩
                      else .error ⟨some random_letters, ev3⟩
                    else .error ⟨some random_letters, ev2⟩
                  else .error ⟨some random_letters, ev2⟩
                else .error ⟨some [], ev2⟩
              else .error ⟨some c1, ev2⟩
          else .error ⟨some [], ev1⟩
        else .error ⟨some original_content, ev1⟩
    else .error ⟨some original_content, []⟩

/-- `erase_file` (src/main.py lines 77-140): the whole body sits inside
`try: ... except Exception: return False`, so any exception raised by the
body is converted to the failure return value `False`.  A result
`.ok (b, st)` is the Boolean return value together with the observable
state; a result `.error st` would be an exception escaping `erase_file`
itself (the theorems below show this never happens). -/
def erase_file (file : Option (List Nat)) (name : String)
    (rand : Nat → Nat) (opOk : Nat → Bool) : Except EState (Bool × EState) :=
  match eraseBody file name rand opOk with
  | .ok r => .ok r
  | .error st => .ok (false, st)

/-! ### The batch coordinator `EraseWorker` (src/main.py lines 143-175) -/

/-- One entry of the worker's file list together with the per-file inputs of
`erase_file`: the file's display name, its on-disk state, the random-letter
stream of pass 2 and the fault oracle for the file's I/O operations. -/
structure FileCase where
  name : String
  file : Option (List Nat)
  rand : Nat → Nat
  opOk : Nat → Bool

/-- Events observable from `EraseWorker.run`, in emission order:
`progress m` is `self.progress.emit(...)` (both the worker's own messages
and the `erase_file` callback messages it forwards), `fileProgress cur tot`
is `self.file_progress.emit(i + 1, total)`, and `finished s f` is
`self.finished_signal.emit(success_count, fail_count)`. -/
inductive Event where
  | progress (m : Msg)
  | fileProgress (current total : Nat)
  | finished (success fail : Nat)
deriving DecidableEq

/-- `true` exactly on `Event.fileProgress` events. -/
def isFileProgressE : Event → Bool
  | .fileProgress _ _ => true
  | _ => false

/-- `true` exactly on `Event.finished` events. -/
def isFinishedE : Event → Bool
  | .finished _ _ => true
  | _ => false

/-- The loop of `EraseWorker.run` (src/main.py lines 159-172), from the
remaining file list `rest` at loop index `i` with counters `s`/`f`
(`success_count`/`fail_count`) and the events `evs` emitted so far.
`alive i` is the value the shared flag `self.is_running` has when it is
read at the top of iteration `i`.  A `.error` result would be an exception
escaping the loop (skipping `finished_signal.emit`); `.ok (s, f, evs)`
means the loop ran to completion (or hit the cancellation `break`) and
emitted `finished_signal` with the final counters. -/
def runLoop (alive : Nat → Bool) (total : Nat) :
    List FileCase → Nat → Nat → Nat → List Event →
      Except (List Event) (Nat × Nat × List Event)
  | [], _, s, f, evs => .ok (s, f, evs ++ [Event.finished s f])
  | fc :: rest, i, s, f, evs =>
    if alive i then
      match erase_file fc.file fc.name fc.rand fc.opOk with
      | .error st =>
          .error ((evs ++ [Event.fileProgress (i + 1) total,
            Event.progress (Msg.processing (i + 1) total fc.name)]) ++
              st.events.map Event.progress)
      | .ok (b, st) =>
          runLoop alive total rest (i + 1)
            (if b then s + 1 else s) (if b then f else f + 1)
            ((evs ++ [Event.fileProgress (i + 1) total,
              Event.progress (Msg.processing (i + 1) total fc.name)]) ++
                st.events.map Event.progress)
    else .ok (s, f, evs ++ [Event.progress Msg.stopped, Event.finished s f])

/-- `EraseWorker.run` (src/main.py lines 154-172): counters start at zero,
`total = len(self.files)`, iteration starts at index 0 with no events. -/
def EraseWorker.run (files : List FileCase) (alive : Nat → Bool) :
    Except (List Event) (Nat × Nat × List Event) :=
  runLoop alive files.length files 0 0 0 []

/-! ### The target resolver `get_all_files` (src/main.py lines 63-74) -/

/-- A filesystem entry: a regular file with its content, or a directory
with its named children. -/
inductive Entry where
  | file (content : List Nat)
  | dir (children : List (String × Entry))

/-- `Path.is_file()` on an existing entry. -/
def isFileE : Entry → Bool
  | .file _ => true
  | .dir _ => false

/-- `Path.is_dir()` on an existing entry. -/
def isDirE : Entry → Bool
  | .file _ => false
  | .dir _ => true

/-- `path.rglob('*')` restricted to the children list of a directory:
every descendant entry (files and directories), each with its path of name
components relative to the directory.  The traversal order is a
depth-first pre-order; the resolver's callers do not depend on the order. -/
def rglobChildren : List (String × Entry) → List (List String × Entry)
  | [] => []
  | (n, Entry.file c) :: rest => ([n], Entry.file c) :: rglobChildren rest
  | (n, Entry.dir cs) :: rest =>
      ([n], Entry.dir cs) ::
        ((rglobChildren cs).map (fun pe => (n :: pe.1, pe.2)) ++ rglobChildren rest)
termination_by l => sizeOf l

/-- `path.rglob('*')`: all descendants of an entry. -/
def rglob : Entry → List (List String × Entry)
  | .file _ => []
  | .dir cs => rglobChildren cs

/-- Number of descendants of a children list that are regular files
(counting recursively through subdirectories). -/
def countList : List (String × Entry) → Nat
  | [] => 0
  | (_, Entry.file _) :: rest => 1 + countList rest
  | (_, Entry.dir cs) :: rest => countList cs + countList rest
termination_by l => sizeOf l

/-- `get_all_files(paths)` (src/main.py lines 63-74).  Each requested path
is modelled as its name paired with what it resolves to on disk: `none` if
the path does not exist, `some e` if it is entry `e`.  An existing file is
appended as-is; for an existing directory, every `rglob('*')` descendant
that is itself a file is appended; anything else contributes nothing. -/
def get_all_files (paths : List (String × Option Entry)) : List (List String) :=
  paths.flatMap fun t =>
    match t.2 with
    | none => []
    | some e =>
      if isFileE e then [[t.1]]
      else if isDirE e then
        ((rglob e).filter fun pe => isFileE pe.2).map fun pe => t.1 :: pe.1
      else []


/-! ### Concrete instances used by the closed theorems below -/

/-- A concrete erase case: an existing 3-byte file named "a" with a
fault-free oracle. -/
def fc0 : FileCase := ⟨"a", some [1, 2, 3], fun _ => 65, fun _ => true⟩

/-- A concrete two-file batch. -/
def files2 : List FileCase := [fc0, fc0]

/-- A flag history: `is_running` is still `True` at the check before
file 0 and `False` from the check before file 1 on (i.e. `stop()` was
called after the first file completed). -/
def alive1 : Nat → Bool := fun i => decide (i < 1)

/-- A concrete directory: three files plus one nested subdirectory holding
two more files (five descendant files in total). -/
def exampleDir : Entry :=
  Entry.dir [("a", Entry.file [1]), ("b", Entry.file [2]), ("c", Entry.file [3]),
    ("sub", Entry.dir [("d", Entry.file [4]), ("e", Entry.file [5])])]

/-! ### Helper lemmas -/

/-- The `except Exception` handler of `erase_file` converts every outcome of
the body into a normal Boolean return: no exception escapes. -/
theorem erase_file_total (file : Option (List Nat)) (name : String)
    (rand : Nat → Nat) (opOk : Nat → Bool) :
    ∃ b st, erase_file file name rand opOk = .ok (b, st) := by
  unfold erase_file
  cases h : eraseBody file name rand opOk with
  | ok r => exact ⟨r.1, r.2, by simp⟩
  | error st => exact ⟨false, st, rfl⟩

/-- On an existing non-empty file whose read and pass-1 open/write succeed,
`erase_file` performs pass 1 and then fails on the closed-handle flush:
it returns `False`, the file holds the first `int(N * 0.9)` bytes of the
original content, and only the pass-1 progress message was emitted. -/
theorem erase_file_nonempty (c : List Nat) (hc : c ≠ []) (name : String)
    (rand : Nat → Nat) (opOk : Nat → Bool)
    (h0 : opOk 0 = true) (h1 : opOk 1 = true) (h2 : opOk 2 = true) :
    erase_file (some c) name rand opOk =
      .ok (false, ⟨some (c.take (pyInt09 c.length)), [Msg.step1 name]⟩) := by
  have hlen : ¬ c.length = 0 := by simpa [List.length_eq_zero] using hc
  simp [erase_file, eraseBody, h0, h1, h2, hlen, flushClosed]

/-- On an existing empty file whose read succeeds, `erase_file` returns
`True` immediately: no write, no progress message, file unchanged. -/
theorem erase_file_empty (name : String) (rand : Nat → Nat) (opOk : Nat → Bool)
    (h0 : opOk 0 = true) :
    erase_file (some []) name rand opOk = .ok (true, ⟨some [], []⟩) := by
  simp [erase_file, eraseBody, h0]

/-- Accounting invariant of the worker loop: for any remaining list, start
index, counters and flag history, the loop terminates normally, the counter
increments `ds`/`df` sum to the number of files actually processed (at most
the number remaining), the `fileProgress` events appended are exactly one
per processed file with consecutive 1-based indices, and exactly one
`finished` event is appended, carrying the final counters. -/
theorem runLoop_spec (alive : Nat → Bool) (total : Nat) (rest : List FileCase) :
    ∀ (i s f : Nat) (evs : List Event),
      ∃ ds df tail,
        runLoop alive total rest i s f evs = .ok (s + ds, f + df, evs ++ tail) ∧
        ds + df ≤ rest.length ∧
        tail.filter isFileProgressE =
          (List.range' (i + 1) (ds + df)).map (fun j => Event.fileProgress j total) ∧
        tail.filter isFinishedE = [Event.finished (s + ds) (f + df)] := by
  induction rest with
  | nil =>
    intro i s f evs
    exact ⟨0, 0, [Event.finished s f],
      by simp [runLoop], by simp,
      by simp [isFileProgressE], by simp [isFinishedE]⟩
  | cons fc rest ih =>
    intro i s f evs
    by_cases ha : alive i
    · obtain ⟨b, st, hbe⟩ := erase_file_total fc.file fc.name fc.rand fc.opOk
      obtain ⟨ds, df, tail, hrun, hle, hfp, hfin⟩ :=
        ih (i + 1) (if b then s + 1 else s) (if b then f else f + 1)
          ((evs ++ [Event.fileProgress (i + 1) total,
            Event.progress (Msg.processing (i + 1) total fc.name)]) ++
              st.events.map Event.progress)
      refine ⟨(if b then ds + 1 else ds), (if b then df else df + 1),
        ([Event.fileProgress (i + 1) total,
          Event.progress (Msg.processing (i + 1) total fc.name)] ++
            st.events.map Event.progress) ++ tail, ?_, ?_, ?_, ?_⟩
      · rw [show runLoop alive total (fc :: rest) i s f evs =
          runLoop alive total rest (i + 1)
            (if b then s + 1 else s) (if b then f else f + 1)
            ((evs ++ [Event.fileProgress (i + 1) total,
              Event.progress (Msg.processing (i + 1) total fc.name)]) ++
                st.events.map Event.progress) by simp [runLoop, ha, hbe]]
        rw [hrun]
        cases b <;> simp <;> omega
      · cases b <;> simp at hle ⊢ <;> omega
      · have hcnt : (if b then ds + 1 else ds) + (if b then df else df + 1) =
            (ds + df) + 1 := by cases b <;> simp <;> omega
        rw [hcnt]
        rw [List.filter_append, List.filter_append]
        have hmap : (st.events.map Event.progress).filter isFileProgressE = [] := by
          simp [isFileProgressE]
        rw [hmap, hfp]
        rw [List.range'_succ]
        simp [isFileProgressE]
      · rw [List.filter_append, List.filter_append]
        have hmap : (st.events.map Event.progress).filter isFinishedE = [] := by
          simp [isFinishedE]
        rw [hmap, hfin]
        cases b <;> simp [isFinishedE] <;> omega
    · refine ⟨0, 0, [Event.progress Msg.stopped, Event.finished s f], ?_, ?_, ?_, ?_⟩
      · simp [runLoop, ha]
      · simp
      · simp [isFileProgressE]
      · simp [isFinishedE]

/-- Cancellation behaviour of the worker loop: if the flag stays alive for
the `n` checks at indices `i, ..., i+n-1` and is cleared at the check at
index `i+n` (with at least `n+1` files remaining), then exactly `n` more
files are processed, the appended `fileProgress` events are exactly those
of files `i+1, ..., i+n` (1-based), and the single `finished` event carries
counters whose increments sum to `n`. -/
theorem runLoop_stop (alive : Nat → Bool) (total : Nat) (rest : List FileCase) :
    ∀ (n i s f : Nat) (evs : List Event), n < rest.length →
      (∀ t, t < n → alive (i + t) = true) → alive (i + n) = false →
      ∃ ds df tail,
        runLoop alive total rest i s f evs = .ok (s + ds, f + df, evs ++ tail) ∧
        ds + df = n ∧
        tail.filter isFileProgressE =
          (List.range' (i + 1) n).map (fun j => Event.fileProgress j total) ∧
        tail.filter isFinishedE = [Event.finished (s + ds) (f + df)] := by
  induction rest with
  | nil =>
    intro n i s f evs hn _ _
    exact absurd hn (by simp)
  | cons fc rest ih =>
    intro n i s f evs hn hlive hstop
    match n with
    | 0 =>
      have ha : alive i = false := by simpa using hstop
      refine ⟨0, 0, [Event.progress Msg.stopped, Event.finished s f], ?_, rfl, ?_, ?_⟩
      · simp [runLoop, ha]
      · simp [isFileProgressE]
      · simp [isFinishedE]
    | m + 1 =>
      have ha : alive i = true := by simpa using hlive 0 (by omega)
      obtain ⟨b, st, hbe⟩ := erase_file_total fc.file fc.name fc.rand fc.opOk
      obtain ⟨ds, df, tail, hrun, hsum, hfp, hfin⟩ :=
        ih m (i + 1) (if b then s + 1 else s) (if b then f else f + 1)
          ((evs ++ [Event.fileProgress (i + 1) total,
            Event.progress (Msg.processing (i + 1) total fc.name)]) ++
              st.events.map Event.progress)
          (by simpa using Nat.lt_of_succ_lt_succ hn)
          (fun t ht => by
            have := hlive (t + 1) (by omega)
            rwa [show i + (t + 1) = i + 1 + t by omega] at this)
          (by
            have := hstop
            rwa [show i + (m + 1) = i + 1 + m by omega] at this)
      refine ⟨(if b then ds + 1 else ds), (if b then df else df + 1),
        ([Event.fileProgress (i + 1) total,
          Event.progress (Msg.processing (i + 1) total fc.name)] ++
            st.events.map Event.progress) ++ tail, ?_, ?_, ?_, ?_⟩
      · rw [show runLoop alive total (fc :: rest) i s f evs =
          runLoop alive total rest (i + 1)
            (if b then s + 1 else s) (if b then f else f + 1)
            ((evs ++ [Event.fileProgress (i + 1) total,
              Event.progress (Msg.processing (i + 1) total fc.name)]) ++
                st.events.map Event.progress) by simp [runLoop, ha, hbe]]
        rw [hrun]
        cases b <;> simp <;> omega
      · cases b <;> simp <;> omega
      · have hcnt : m + 1 = m + 1 := rfl
        rw [List.filter_append, List.filter_append]
        have hmap : (st.events.map Event.progress).filter isFileProgressE = [] := by
          simp [isFileProgressE]
        rw [hmap, hfp, List.range'_succ]
        simp [isFileProgressE]
      · rw [List.filter_append, List.filter_append]
        have hmap : (st.events.map Event.progress).filter isFinishedE = [] := by
          simp [isFinishedE]
        rw [hmap, hfin]
        cases b <;> simp [isFinishedE] <;> omega

/-- Filtering the recursive traversal of a children list down to files
yields exactly one entry per descendant file. -/
theorem length_filter_rglobChildren :
    ∀ cs : List (String × Entry),
      ((rglobChildren cs).filter fun pe => isFileE pe.2).length = countList cs
  | [] => by simp [rglobChildren, countList]
  | (n, Entry.file c) :: rest => by
      rw [rglobChildren, countList, List.filter_cons]
      have hhead : (fun pe : List String × Entry => isFileE pe.2) ([n], Entry.file c) =
          true := rfl
      rw [if_pos hhead, List.length_cons, length_filter_rglobChildren rest]
      omega
  | (n, Entry.dir cs) :: rest => by
      rw [rglobChildren, countList, List.filter_cons]
      have hhead : (fun pe : List String × Entry => isFileE pe.2) ([n], Entry.dir cs) =
          false := rfl
      rw [if_neg (by simp [hhead]), List.filter_append, List.filter_map]
      have hc : (rglobChildren cs).filter
          ((fun pe : List String × Entry => isFileE pe.2) ∘ fun pe => (n :: pe.1, pe.2)) =
          (rglobChildren cs).filter (fun pe => isFileE pe.2) :=
        List.filter_congr (fun x _ => rfl)
      rw [hc, List.length_append, List.length_map,
        length_filter_rglobChildren cs, length_filter_rglobChildren rest]
termination_by cs => sizeOf cs

/-- Byte `p` of `n` concatenated copies of `b"hello world "` is byte
`p % 12` of the pattern. -/
theorem getD_flatten_replicate_hw :
    ∀ (n p : Nat), p < n * 12 →
      ((List.replicate n helloWorldBytes).flatten).getD p 0 =
        helloWorldBytes.getD (p % 12) 0
  | 0, p, h => absurd h (by omega)
  | n + 1, p, h => by
    rw [List.replicate_succ, List.flatten_cons]
    by_cases hp : p < 12
    · rw [List.getD_append _ _ _ p
        (by rw [show helloWorldBytes.length = 12 from rfl]; omega),
        Nat.mod_eq_of_lt hp]
    · rw [List.getD_append_right _ _ _ p
        (by rw [show helloWorldBytes.length = 12 from rfl]; omega)]
      rw [show helloWorldBytes.length = 12 from rfl]
      rw [getD_flatten_replicate_hw n (p - 12) (by omega)]
      rw [← Nat.mod_eq_sub_mod (by omega)]

/-! ### Claims -/

/-- C1: the claim states that for every existing non-empty file, absent
I/O errors, `erase_file` performs all four passes and returns success with
final size 0.  The code does not do this: evaluating `erase_file` on a
10-byte file with a fault-free oracle shows that after the pass-1 write
the dedented `f.flush()` of src/main.py line 102 runs on the handle the
`with` block just closed, raises `ValueError`, and the `except` handler
returns `False` — the file is left with 9 bytes, passes 2-4 never run. -/
theorem spec_C1_four_pass_claim_fails_on_code :
    erase_file (some [0, 1, 2, 3, 4, 5, 6, 7, 8, 9]) "a" (fun _ => 65) (fun _ => true) =
      .ok (false, ⟨some [0, 1, 2, 3, 4, 5, 6, 7, 8], [Msg.step1 "a"]⟩) := rfl

/-- C2: for every existing non-empty file whose read and pass-1 open/write
succeed, the `with` block closes the handle after the pass-1 write, the
dedented `f.flush()`/`os.fsync(...)` on the closed handle raise, the outer
handler catches the exception, and `erase_file` returns `False`, having
emitted only the pass-1 progress message and left the file holding exactly
the first `int(N * 0.9)` bytes of the original content. -/
theorem spec_C2_closed_handle_flush (c : List Nat) (name : String)
    (rand : Nat → Nat) (opOk : Nat → Bool) (hc : c ≠ [])
    (h0 : opOk 0 = true) (h1 : opOk 1 = true) (h2 : opOk 2 = true) :
    erase_file (some c) name rand opOk =
      .ok (false, ⟨some (c.take (pyInt09 c.length)), [Msg.step1 name]⟩) :=
  erase_file_nonempty c hc name rand opOk h0 h1 h2

/-- Witness for C2 at a concrete 3-byte file (`int(3 * 0.9) = 2`). -/
theorem spec_C2_closed_handle_flush_witness :
    erase_file (some [1, 2, 3]) "x" (fun _ => 65) (fun _ => true) =
      .ok (false, ⟨some [1, 2], [Msg.step1 "x"]⟩) := by
  rw [spec_C2_closed_handle_flush [1, 2, 3] "x" (fun _ => 65) (fun _ => true)
    (by decide) rfl rfl rfl]
  rfl

/-- C3: the claim states that after pass 1 the file size is
`M = floor(N * 0.9)` and that passes 2 and 3 then each write exactly `M`
bytes.  Evaluating the code on a 20-byte file with a fault-free oracle
shows pass 1 indeed leaves `int(20 * 0.9) = 18` bytes, but the
closed-handle flush then raises, `erase_file` returns `False`, and passes
2 and 3 never execute, let alone write `M` bytes. -/
theorem spec_C3_pass_sizes_claim_fails_on_code :
    erase_file
        (some [0, 1, 2, 3, 4, 5, 6, 7, 8, 9, 10, 11, 12, 13, 14, 15, 16, 17, 18, 19])
        "b" (fun _ => 66) (fun _ => true) =
      .ok (false,
        ⟨some [0, 1, 2, 3, 4, 5, 6, 7, 8, 9, 10, 11, 12, 13, 14, 15, 16, 17],
         [Msg.step1 "b"]⟩) := rfl

/-- C4: for every batch and every flag history, the worker loop terminates
normally and emits `finished_signal` exactly once with the final counters;
`success_count + fail_count` equals the number `p` of files processed,
each processed file yields exactly one `file_progress` event (consecutive
1-based indices, so no file is processed twice), `p` is at most the batch
length, and processed plus not-reached files account for the whole batch. -/
theorem spec_C4_batch_accounting (files : List FileCase) (alive : Nat → Bool) :
    ∃ s f evs p,
      EraseWorker.run files alive = .ok (s, f, evs) ∧
      s + f = p ∧ p ≤ files.length ∧ p + (files.length - p) = files.length ∧
      evs.filter isFileProgressE =
        (List.range' 1 p).map (fun j => Event.fileProgress j files.length) ∧
      evs.filter isFinishedE = [Event.finished s f] := by
  obtain ⟨ds, df, tail, hrun, hle, hfp, hfin⟩ :=
    runLoop_spec alive files.length files 0 0 0 []
  refine ⟨ds, df, tail, ds + df, ?_, rfl, hle, by omega, ?_, ?_⟩
  · simpa [EraseWorker.run] using hrun
  · simpa using hfp
  · simpa using hfin

/-- C5: if the cancellation flag is still unset at the checks before files
`0, ..., j-1` and is set at the check before file `j` (with `j` less than
the batch length), then exactly `j` files are processed: the counters
reported by the single `finished_signal` emission sum to `j`, and the
`file_progress` events are exactly those of files `1, ..., j` (1-based) —
none of the remaining `k - j` files is ever started. -/
theorem spec_C5_cancellation (files : List FileCase) (alive : Nat → Bool) (j : Nat)
    (hj : j < files.length)
    (hlive : ∀ i, i < j → alive i = true) (hstop : alive j = false) :
    ∃ s f evs,
      EraseWorker.run files alive = .ok (s, f, evs) ∧ s + f = j ∧
      evs.filter isFileProgressE =
        (List.range' 1 j).map (fun t => Event.fileProgress t files.length) ∧
      evs.filter isFinishedE = [Event.finished s f] := by
  obtain ⟨ds, df, tail, hrun, hsum, hfp, hfin⟩ :=
    runLoop_stop alive files.length files j 0 0 0 [] hj
      (fun t ht => by simpa using hlive t ht) (by simpa using hstop)
  refine ⟨ds, df, tail, ?_, hsum, ?_, ?_⟩
  · simpa [EraseWorker.run] using hrun
  · simpa using hfp
  · simpa using hfin

/-- Witness for C5: a two-file batch where `stop()` takes effect before
file 1 (0-based): one file processed, one not reached. -/
theorem spec_C5_cancellation_witness :
    ∃ s f evs,
      EraseWorker.run files2 alive1 = .ok (s, f, evs) ∧ s + f = 1 ∧
      evs.filter isFileProgressE =
        (List.range' 1 1).map (fun t => Event.fileProgress t files2.length) ∧
      evs.filter isFinishedE = [Event.finished s f] :=
  spec_C5_cancellation files2 alive1 1 (by decide)
    (fun i hi => by
      have h0 : i = 0 := Nat.lt_one_iff.mp hi
      subst h0
      rfl)
    rfl

/-- C6: `erase_file` never lets an exception reach its caller: for every
file state (including a non-existent path), every random stream and every
fault oracle — i.e. whatever I/O operation fails — the result is a normal
Boolean return; and a non-existent path yields the failure return `False`
as an outcome, not an exception. -/
theorem spec_C6_errors_become_failure :
    (∀ (file : Option (List Nat)) (name : String) (rand : Nat → Nat)
        (opOk : Nat → Bool),
        ∃ b st, erase_file file name rand opOk = Except.ok (b, st)) ∧
      (∀ (name : String) (rand : Nat → Nat) (opOk : Nat → Bool),
        erase_file none name rand opOk = Except.ok (false, ⟨none, []⟩)) :=
  ⟨erase_file_total, fun _ _ _ => rfl⟩

/-- C7: on an existing empty file (read succeeding), `erase_file` returns
`True` without emitting any destructive step message and without touching
the file (size stays 0); running it again on the resulting file state
returns `True` again, so erasure is idempotent on empty files. -/
theorem spec_C7_empty_file_idempotent (name : String) (rand rand2 : Nat → Nat)
    (opOk opOk2 : Nat → Bool) (h : opOk 0 = true) (h2 : opOk2 0 = true) :
    ∃ st, erase_file (some []) name rand opOk = .ok (true, st) ∧
      st.fs = some [] ∧ st.events = [] ∧
      erase_file st.fs name rand2 opOk2 = .ok (true, st) := by
  refine ⟨⟨some [], []⟩, ?_, rfl, rfl, ?_⟩
  · exact erase_file_empty name rand opOk h
  · exact erase_file_empty name rand2 opOk2 h2

/-- Witness for C7 at concrete fault-free oracles. -/
theorem spec_C7_empty_file_idempotent_witness :
    ∃ st, erase_file (some []) "x" (fun _ => 65) (fun _ => true) = .ok (true, st) ∧
      st.fs = some [] ∧ st.events = [] ∧
      erase_file st.fs "x" (fun _ => 66) (fun _ => true) = .ok (true, st) :=
  spec_C7_empty_file_idempotent "x" (fun _ => 65) (fun _ => 66)
    (fun _ => true) (fun _ => true) rfl rfl

/-- C8: for every pass size `M`, the pass-3 buffer
`(b"hello world " * (M // 12 + 1))[:M]` has length exactly `M`, and its
byte at every position `p < M` equals byte `p % 12` of the 12-byte
pattern `b"hello world "`. -/
theorem spec_C8_hello_pattern (M : Nat) :
    (hello_data M).length = M ∧
      ∀ p, p < M → (hello_data M).getD p 0 = helloWorldBytes.getD (p % 12) 0 := by
  constructor
  · rw [hello_data, List.length_take, List.length_flatten, List.map_replicate,
      List.sum_replicate, show helloWorldBytes.length = 12 from rfl]
    simp only [smul_eq_mul, inf_eq_min]
    omega
  · intro p hp
    have h1 : (hello_data M).getD p 0 =
        ((List.replicate (M / 12 + 1) helloWorldBytes).flatten).getD p 0 := by
      rw [hello_data, List.getD_eq_getElem?_getD, List.getElem?_take,
        if_pos hp, ← List.getD_eq_getElem?_getD]
    rw [h1, getD_flatten_replicate_hw (M / 12 + 1) p (by omega)]

/-- Witness for C8 at `M = 26`, `p = 13`. -/
theorem spec_C8_hello_pattern_witness :
    (hello_data 26).length = 26 ∧
      (hello_data 26).getD 13 0 = helloWorldBytes.getD (13 % 12) 0 :=
  ⟨(spec_C8_hello_pattern 26).1, (spec_C8_hello_pattern 26).2 13 (by decide)⟩

/-- C9: an existing file target contributes exactly one entry; an existing
directory target contributes exactly one entry per descendant file
(recursively); a non-existent target contributes nothing — `get_all_files`
is total, so no error is ever raised; and the concrete directory with
3 files plus a nested subdirectory holding 2 files resolves to exactly
5 paths. -/
theorem spec_C9_resolver :
    (∀ (nm : String) (c : List Nat),
        get_all_files [(nm, some (Entry.file c))] = [[nm]]) ∧
      (∀ (nm : String) (cs : List (String × Entry)),
        (get_all_files [(nm, some (Entry.dir cs))]).length = countList cs) ∧
      (∀ (nm : String) (rest : List (String × Option Entry)),
        get_all_files ((nm, none) :: rest) = get_all_files rest) ∧
      (get_all_files [("top", some exampleDir)]).length = 5 := by
  refine ⟨?_, ?_, ?_, ?_⟩
  · intro nm c
    have hf : isFileE (Entry.file c) = true := rfl
    simp [get_all_files, hf]
  · intro nm cs
    have hf : isFileE (Entry.dir cs) = false := rfl
    have hd : isDirE (Entry.dir cs) = true := rfl
    simp only [get_all_files, List.flatMap_cons, List.flatMap_nil, List.append_nil,
      hf, hd, Bool.false_eq_true, if_false, if_true, rglob]
    rw [List.length_map, length_filter_rglobChildren cs]
  · intro nm rest
    simp [get_all_files]
  · have hgf : get_all_files [("top", some exampleDir)] =
        ((rglobChildren [("a", Entry.file [1]), ("b", Entry.file [2]),
            ("c", Entry.file [3]),
            ("sub", Entry.dir [("d", Entry.file [4]), ("e", Entry.file [5])])]).filter
          (fun pe => isFileE pe.2)).map (fun pe => "top" :: pe.1) := by
      simp only [get_all_files, List.flatMap_cons, List.flatMap_nil, List.append_nil]
      rfl
    rw [hgf, List.length_map, length_filter_rglobChildren]
    simp only [countList]

/-- C10: on a path that does not exist, `erase_file` returns `False`
without emitting any progress-callback message and without creating or
modifying any file: the not-found failure leaves both the filesystem state
and the event stream untouched, for every random stream and fault
oracle. -/
theorem spec_C10_notfound_atomic (name : String) (rand : Nat → Nat)
    (opOk : Nat → Bool) :
    erase_file none name rand opOk = .ok (false, ⟨none, []⟩) := rfl
